import Mathlib

/-!
Verification of the SQL grading engine (marker-based query extraction,
fresh-schema isolation, result normalization and diffing, and the grading
orchestrator) of the dbms-auto-eval repository.

The Python sources are shallowly embedded:
* database values returned by the external execution capability are modelled
  by the inductive `Value`; a result row is a `List Value`;
* the execution capability (the oracledb cursor of spec section 6) is an
  explicit parameter `Exec`: it takes a statement and a database state and
  either raises (with a message, modelling a Python exception) or returns
  columns, rows and the mutated state;
* Python `sorted` over row tuples is embedded as an insertion sort under a
  fixed total order on rows (the row ordering is delegated to the engine by
  spec section 4.3; any total order is a faithful model of it);
* the regex scan of `parse_queries` (main.py lines 112-123) is embedded as a
  literal-substring scanner: the pattern "--i--\s*(.*?)\s*(?=--\d+--|$)" with
  re.DOTALL matches at the first occurrence of the literal marker, and the
  lazy group together with the final strip yields exactly the trimmed text
  between the end of that marker and the first following position at which
  "--<digits>--" matches (or end of input). `findSub`, `findMarkerIdx` and
  `pyStrip` below implement exactly that reading, and the theorems relate
  them to declarative first-occurrence and first-boundary predicates.
-/

/-- A database value as returned by the external execution capability. -/
inductive Value where
  | vnull : Value
  | vint : Int → Value
  | vstr : String → Value
deriving DecidableEq

/-- One result row: a tuple of values. -/
abbrev Row := List Value

/-- A normalized non-absent result: column names in order, and rows. -/
abbrev NRes := List String × List Row

/-- Comparison of naturals as a three-valued `Ordering`. -/
def natCmpO (a b : Nat) : Ordering :=
  if a < b then Ordering.lt else if b < a then Ordering.gt else Ordering.eq

/-- Comparison of integers as a three-valued `Ordering`. -/
def intCmpO (a b : Int) : Ordering :=
  if a < b then Ordering.lt else if b < a then Ordering.gt else Ordering.eq

/-- Characters compare through their code points. -/
def charCmpO (a b : Char) : Ordering := natCmpO a.toNat b.toNat

/-- Lexicographic comparison of lists given an element comparison. -/
def listCmpO (cmp : α → α → Ordering) : List α → List α → Ordering
  | [], [] => Ordering.eq
  | [], _ :: _ => Ordering.lt
  | _ :: _, [] => Ordering.gt
  | a :: as, b :: bs =>
    match cmp a b with
    | Ordering.eq => listCmpO cmp as bs
    | o => o

/-- Strings compare lexicographically over their characters. -/
def strCmpO (a b : String) : Ordering := listCmpO charCmpO a.toList b.toList

/-- A fixed total order on values, standing in for the engine-native row
ordering that the normalizer delegates to (spec section 4.3). -/
def valCmpO : Value → Value → Ordering
  | Value.vnull, Value.vnull => Ordering.eq
  | Value.vnull, _ => Ordering.lt
  | _, Value.vnull => Ordering.gt
  | Value.vint m, Value.vint n => intCmpO m n
  | Value.vint _, Value.vstr _ => Ordering.lt
  | Value.vstr _, Value.vint _ => Ordering.gt
  | Value.vstr s, Value.vstr t => strCmpO s t

/-- Rows compare lexicographically, as Python tuples do. -/
def rowCmpO (a b : Row) : Ordering := listCmpO valCmpO a b

/-- The non-strict order used for sorting rows. -/
def rowLe (a b : Row) : Bool :=
  match rowCmpO a b with
  | Ordering.gt => false
  | _ => true

/-- Insert a row into a sorted list of rows (the elementary step of the
embedding of Python `sorted`). -/
def insertRow (r : Row) : List Row → List Row
  | [] => [r]
  | x :: xs => if rowLe r x then r :: x :: xs else x :: insertRow r xs

/-- Sort rows: the embedding of `sorted(rows)` in `normalize_result`
(main.py line 60). -/
def sortRows : List Row → List Row
  | [] => []
  | r :: rs => insertRow r (sortRows rs)

/-- `normalize_result` (main.py lines 57-60): absent rows propagate as
absent; otherwise the column sequence is kept verbatim and rows are sorted. -/
def normalize_result (cols : List String) : Option (List Row) → Option NRes
  | none => none
  | some rs => some (cols, sortRows rs)

/-- Rendering of a value, modelling how pformat prints it. -/
def valRender : Value → String
  | Value.vnull => "None"
  | Value.vint n => toString n
  | Value.vstr s => s

/-- Rendering of a row, modelling how pformat prints a tuple. -/
def rowRender (r : Row) : String :=
  "(" ++ String.intercalate ", " (r.map valRender) ++ ")"

/-- Rendering of a collection of rows (model of `pformat` on the row sets
built in `diff_results`). -/
def pformatRows (rs : List Row) : String :=
  "[" ++ String.intercalate ", " (rs.map rowRender) ++ "]"

/-- Rendering of a column list (model of the f-string interpolation of the
column lists in the column-mismatch message). -/
def renderCols (cols : List String) : String :=
  "[" ++ String.intercalate ", " cols ++ "]"

/-- `pretty_result` (main.py lines 63-69): absent rows render as
"NO RESULT", otherwise a rendering of columns and rows (the dict built by
the code, rendered by pformat; we model the rendered text directly). -/
def pretty_result (cols : List String) (rows : Option (List Row)) : String :=
  match rows with
  | none => "NO RESULT"
  | some rs => "columns: " ++ renderCols cols ++ "; rows: " ++ pformatRows rs

/-- Deduplicated list difference: the embedding of
`set(xs) - set(ys)` over row tuples (main.py lines 91-92); membership in the
result is exactly membership in `xs` minus membership in `ys`. -/
def setDiffRows (xs ys : List Row) : List Row :=
  (xs.filter (fun r => decide (r ∉ ys))).dedup

/-- The "missing" set of `diff_results` (main.py line 91): expected rows
absent from the actual result. -/
def missingRows (e a : NRes) : List Row := setDiffRows e.2 a.2

/-- The "extra" set of `diff_results` (main.py line 92): actual rows absent
from the expected result. -/
def extraRows (e a : NRes) : List Row := setDiffRows a.2 e.2

/-- `"\n\n".join(parts)`: the embedding of the string join on the diff list
(main.py line 100). -/
def joinParts : List String → String
  | [] => ""
  | [p] => p
  | p :: ps => p ++ "\n\n" ++ joinParts ps

/-- Body of `diff_results` for two non-absent results
(main.py lines 78-100): accumulate a column-mismatch part, a missing-rows
part and an extra-rows part, then join them. -/
def diffBody (e a : NRes) : String :=
  let colPart : List String :=
    if e.1 ≠ a.1 then
      ["Column mismatch:\nExpected: " ++ renderCols e.1 ++
        "\nActual:   " ++ renderCols a.1]
    else []
  let missing := missingRows e a
  let extra := extraRows e a
  let missPart : List String :=
    if missing ≠ [] then ["Missing rows:\n" ++ pformatRows missing] else []
  let extraPart : List String :=
    if extra ≠ [] then ["Extra rows:\n" ++ pformatRows extra] else []
  joinParts (colPart ++ missPart ++ extraPart)

/-- `diff_results` (main.py lines 72-100). -/
def diff_results : Option NRes → Option NRes → String
  | none, _ => "No expected result provided."
  | some _, none => "No actual result provided (student query missing or failed)."
  | some e, some a => diffBody e a

/-- The verdict the orchestrator derives from the diff text
(main.py lines 209-213): PASS exactly when the diff is empty. -/
def verdictOf (expected actual : Option NRes) : String :=
  if diff_results expected actual = "" then "PASS" else "FAIL"

-- ---------------------------------------------------------------------------
-- Order lemmas

theorem natCmpO_swap (a b : Nat) : natCmpO a b = (natCmpO b a).swap := by
  unfold natCmpO
  rcases Nat.lt_trichotomy a b with h | h | h
  · simp [h, Nat.lt_asymm h, Ordering.swap]
  · simp [h, Nat.lt_irrefl, Ordering.swap]
  · simp [h, Nat.lt_asymm h, Ordering.swap]

theorem intCmpO_swap (a b : Int) : intCmpO a b = (intCmpO b a).swap := by
  unfold intCmpO
  rcases lt_trichotomy a b with h | h | h
  · simp [h, not_lt_of_gt h, Ordering.swap]
  · simp [h, lt_irrefl, Ordering.swap]
  · simp [h, not_lt_of_gt h, Ordering.swap]

theorem charCmpO_swap (a b : Char) : charCmpO a b = (charCmpO b a).swap :=
  natCmpO_swap a.toNat b.toNat

theorem listCmpO_swap (cmp : α → α → Ordering)
    (hc : ∀ x y, cmp x y = (cmp y x).swap) :
    ∀ as bs, listCmpO cmp as bs = (listCmpO cmp bs as).swap
  | [], [] => rfl
  | [], _ :: _ => rfl
  | _ :: _, [] => rfl
  | a :: as, b :: bs => by
    simp only [listCmpO]
    rw [hc a b]
    cases cmp b a with
    | lt => rfl
    | eq => simp [Ordering.swap, listCmpO_swap cmp hc as bs]
    | gt => rfl

theorem strCmpO_swap (a b : String) : strCmpO a b = (strCmpO b a).swap :=
  listCmpO_swap charCmpO charCmpO_swap a.toList b.toList

theorem valCmpO_swap (a b : Value) : valCmpO a b = (valCmpO b a).swap := by
  cases a <;> cases b <;> try rfl
  · exact intCmpO_swap _ _
  · exact strCmpO_swap _ _

theorem rowCmpO_swap (a b : Row) : rowCmpO a b = (rowCmpO b a).swap :=
  listCmpO_swap valCmpO valCmpO_swap a b

theorem rowLe_total (a b : Row) : rowLe a b = true ∨ rowLe b a = true := by
  unfold rowLe
  rcases h : rowCmpO a b with _ | _ | _
  · left; rfl
  · left; rfl
  · right
    have hs := rowCmpO_swap b a
    rw [h] at hs
    rw [hs]
    decide

-- ---------------------------------------------------------------------------
-- Sortedness and idempotence of the normalizer

/-- Adjacent-pair sortedness of a row list. -/
def SortedRows : List Row → Prop
  | [] => True
  | [_] => True
  | a :: b :: l => rowLe a b = true ∧ SortedRows (b :: l)

theorem sortedRows_tail : ∀ {a : Row} {l : List Row},
    SortedRows (a :: l) → SortedRows l
  | _, [], _ => trivial
  | _, _ :: _, h => h.2

theorem insertRow_sorted (r : Row) :
    ∀ l : List Row, SortedRows l → SortedRows (insertRow r l)
  | [], _ => trivial
  | x :: xs, h => by
    unfold insertRow
    by_cases hle : rowLe r x = true
    · rw [if_pos hle]
      exact ⟨hle, h⟩
    · rw [if_neg hle]
      have hxr : rowLe x r = true := by
        rcases rowLe_total r x with ht | ht
        · exact absurd ht hle
        · exact ht
      cases xs with
      | nil => exact ⟨hxr, trivial⟩
      | cons y ys =>
        have htail : SortedRows (insertRow r (y :: ys)) :=
          insertRow_sorted r (y :: ys) h.2
        unfold insertRow
        by_cases hry : rowLe r y = true
        · rw [if_pos hry]
          exact ⟨hxr, by unfold insertRow at htail; rw [if_pos hry] at htail; exact htail⟩
        · rw [if_neg hry]
          refine ⟨h.1, ?_⟩
          unfold insertRow at htail
          rw [if_neg hry] at htail
          exact htail

theorem sortRows_sorted : ∀ l : List Row, SortedRows (sortRows l)
  | [] => trivial
  | r :: rs => insertRow_sorted r (sortRows rs) (sortRows_sorted rs)

theorem sortRows_of_sorted : ∀ l : List Row, SortedRows l → sortRows l = l
  | [], _ => rfl
  | a :: l, h => by
    unfold sortRows
    rw [sortRows_of_sorted l (sortedRows_tail h)]
    cases l with
    | nil => rfl
    | cons x xs =>
      unfold insertRow
      rw [if_pos h.1]

theorem sortRows_idem (l : List Row) : sortRows (sortRows l) = sortRows l :=
  sortRows_of_sorted (sortRows l) (sortRows_sorted l)

-- ---------------------------------------------------------------------------
-- Diff lemmas

theorem joinParts_length_pos (a : String) (l : List String)
    (ha : 0 < a.length) : 0 < (joinParts (a :: l)).length := by
  cases l with
  | nil => exact ha
  | cons b l2 =>
    show 0 < (a ++ "\n\n" ++ joinParts (b :: l2)).length
    simp [String.length_append]
    omega

theorem joinParts_ne_empty (a : String) (l : List String)
    (ha : 0 < a.length) : joinParts (a :: l) ≠ "" := by
  intro h
  have := joinParts_length_pos a l ha
  rw [h] at this
  simp at this

theorem setDiffRows_eq_nil_iff (xs ys : List Row) :
    setDiffRows xs ys = [] ↔ ∀ r ∈ xs, r ∈ ys := by
  unfold setDiffRows
  rw [List.dedup_eq_nil, List.filter_eq_nil]
  constructor
  · intro h r hr
    have := h r hr
    simp at this
    exact this
  · intro h r hr
    simp
    exact h r hr

theorem diffBody_eq_empty_iff (e a : NRes) :
    diffBody e a = "" ↔
      e.1 = a.1 ∧ missingRows e a = [] ∧ extraRows e a = [] := by
  simp only [diffBody]
  by_cases hc : e.1 = a.1
  · rw [if_neg (by simp [hc])]
    by_cases hm : missingRows e a = []
    · rw [if_neg (by simp [hm])]
      by_cases hx : extraRows e a = []
      · rw [if_neg (by simp [hx])]
        simp [joinParts, hc, hm, hx]
      · rw [if_pos hx]
        simp only [List.nil_append]
        apply iff_of_false
        · apply joinParts_ne_empty
          rw [String.length_append]
          have h14 : ("Extra rows:\n" : String).length = 12 := rfl
          omega
        · intro h
          exact hx h.2.2
    · rw [if_pos hm]
      simp only [List.nil_append, List.cons_append]
      apply iff_of_false
      · apply joinParts_ne_empty
        rw [String.length_append]
        have h14 : ("Missing rows:\n" : String).length = 14 := rfl
        omega
      · intro h
        exact hm h.2.1
  · rw [if_pos (by simp [hc])]
    simp only [List.cons_append, List.nil_append]
    apply iff_of_false
    · apply joinParts_ne_empty
      simp only [String.length_append]
      have h27 : ("Column mismatch:\nExpected: " : String).length = 27 := rfl
      omega
    · intro h
      exact hc h.1

theorem diff_results_eq_empty_iff (e a : NRes) :
    diff_results (some e) (some a) = "" ↔
      e.1 = a.1 ∧ missingRows e a = [] ∧ extraRows e a = [] :=
  diffBody_eq_empty_iff e a

theorem verdictOf_pass_iff (e a : NRes) :
    verdictOf (some e) (some a) = "PASS" ↔
      e.1 = a.1 ∧ missingRows e a = [] ∧ extraRows e a = [] := by
  unfold verdictOf
  constructor
  · intro h
    by_cases hd : diff_results (some e) (some a) = ""
    · exact (diff_results_eq_empty_iff e a).mp hd
    · rw [if_neg hd] at h
      exact absurd h (by decide)
  · intro h
    rw [if_pos ((diff_results_eq_empty_iff e a).mpr h)]

theorem verdictOf_fail_iff (e a : NRes) :
    verdictOf (some e) (some a) = "FAIL" ↔
      ¬(e.1 = a.1 ∧ missingRows e a = [] ∧ extraRows e a = []) := by
  rw [← verdictOf_pass_iff]
  unfold verdictOf
  by_cases hd : diff_results (some e) (some a) = ""
  · rw [if_pos hd]
    decide
  · rw [if_neg hd]
    decide

-- ---------------------------------------------------------------------------
-- Claim theorems on the comparator and normalizer

/-- Claim C1: for non-absent normalized results the verdict is PASS exactly
when the column sequences are equal as ordered sequences and both set
differences of row tuples (expected minus actual, actual minus expected) are
empty, and FAIL otherwise; an absent expected result always reports
"No expected result provided." whatever the actual result is, and a present
expected result with an absent actual result reports
"No actual result provided (student query missing or failed).". -/
theorem c1_comparator_verdict :
    (∀ ec er ac ar,
      (verdictOf (some (ec, er)) (some (ac, ar)) = "PASS" ↔
        ec = ac ∧ (∀ r ∈ er, r ∈ ar) ∧ (∀ r ∈ ar, r ∈ er)) ∧
      (verdictOf (some (ec, er)) (some (ac, ar)) = "FAIL" ↔
        ¬(ec = ac ∧ (∀ r ∈ er, r ∈ ar) ∧ (∀ r ∈ ar, r ∈ er)))) ∧
    (∀ a, diff_results none a = "No expected result provided.") ∧
    (∀ e, diff_results (some e) none =
      "No actual result provided (student query missing or failed).") := by
  refine ⟨fun ec er ac ar => ?_, fun a => rfl, fun e => rfl⟩
  have hcond : (ec = ac ∧ missingRows (ec, er) (ac, ar) = [] ∧
        extraRows (ec, er) (ac, ar) = []) ↔
      (ec = ac ∧ (∀ r ∈ er, r ∈ ar) ∧ (∀ r ∈ ar, r ∈ er)) := by
    simp only [missingRows, extraRows]
    rw [setDiffRows_eq_nil_iff, setDiffRows_eq_nil_iff]
  constructor
  · rw [verdictOf_pass_iff]
    exact hcond
  · rw [verdictOf_fail_iff]
    exact not_congr hcond

/-- Claim C7: swapping the expected and actual arguments swaps the missing
and extra row sets exactly, and mismatch detection is symmetric: the swapped
pair passes exactly when the original pair passes. -/
theorem c7_swap_missing_extra :
    ∀ e a : NRes,
      missingRows e a = extraRows a e ∧
      extraRows e a = missingRows a e ∧
      (verdictOf (some e) (some a) = "PASS" ↔
        verdictOf (some a) (some e) = "PASS") := by
  intro e a
  refine ⟨rfl, rfl, ?_⟩
  rw [verdictOf_pass_iff, verdictOf_pass_iff]
  constructor
  · intro h
    exact ⟨h.1.symm, h.2.2, h.2.1⟩
  · intro h
    exact ⟨h.1.symm, h.2.2, h.2.1⟩

/-- Claim C8: normalization is idempotent: normalizing an already-normalized
result (sorted rows, columns kept verbatim) returns it unchanged, and an
absent result stays absent. -/
theorem c8_normalize_idempotent :
    ∀ (cols : List String) (rows : List Row),
      normalize_result cols (some (sortRows rows)) =
        some (cols, sortRows rows) ∧
      normalize_result cols none = none := by
  intro cols rows
  constructor
  · simp only [normalize_result]
    rw [sortRows_idem]
  · rfl

/-- Claim C10: row comparison is multiplicity-insensitive: with identical
column sequences, if the expected and actual row lists have the same set of
distinct row tuples then no missing or extra rows are reported and the
verdict is PASS, duplicate-count differences notwithstanding. -/
theorem c10_multiplicity_insensitive
    (ec : List String) (er : List Row) (ac : List String) (ar : List Row)
    (hcols : ec = ac) (h1 : ∀ r ∈ er, r ∈ ar) (h2 : ∀ r ∈ ar, r ∈ er) :
    missingRows (ec, er) (ac, ar) = [] ∧
    extraRows (ec, er) (ac, ar) = [] ∧
    verdictOf (some (ec, er)) (some (ac, ar)) = "PASS" := by
  have hm : missingRows (ec, er) (ac, ar) = [] := by
    unfold missingRows
    rw [setDiffRows_eq_nil_iff]
    exact h1
  have hx : extraRows (ec, er) (ac, ar) = [] := by
    unfold extraRows
    rw [setDiffRows_eq_nil_iff]
    exact h2
  exact ⟨hm, hx, (verdictOf_pass_iff _ _).mpr ⟨hcols, hm, hx⟩⟩

/-- Witness for C10: a concrete pair with equal distinct-row sets but
different duplicate counts is judged PASS. -/
theorem c10_witness :
    (∀ r ∈ [[Value.vint 1], [Value.vint 1], [Value.vint 2]],
      r ∈ [[Value.vint 2], [Value.vint 2], [Value.vint 1]]) ∧
    verdictOf
      (some (["C"], [[Value.vint 1], [Value.vint 1], [Value.vint 2]]))
      (some (["C"], [[Value.vint 2], [Value.vint 2], [Value.vint 1]])) =
        "PASS" :=
  ⟨by decide,
   (c10_multiplicity_insensitive ["C"]
      [[Value.vint 1], [Value.vint 1], [Value.vint 2]] ["C"]
      [[Value.vint 2], [Value.vint 2], [Value.vint 1]] rfl (by decide)
      (by decide)).2.2⟩

-- ---------------------------------------------------------------------------
-- Query extraction (parse_queries, main.py lines 112-123) and the
-- per-slot format check (check_format.py lines 50-71)

/-- The whitespace class used both by the \s parts of the extraction regex
and by Python str.strip (ASCII fragment). -/
def pyWS (c : Char) : Bool :=
  c == ' ' || c == '\t' || c == '\n' || c == '\r' || c == '\x0b' || c == '\x0c'

/-- Trim leading and trailing whitespace, as `.strip()` does. -/
def pyStrip (l : List Char) : List Char :=
  ((l.dropWhile pyWS).reverse.dropWhile pyWS).reverse

/-- The literal marker text "--i--" of slot `i`. -/
def markerOf (i : Nat) : List Char :=
  ('-' :: '-' :: (Nat.repr i).toList) ++ ['-', '-']

/-- Leftmost-occurrence search for a literal pattern: the position at which
`re.search` anchors the match (the pattern begins with the literal marker,
and the rest of the pattern can always complete, so the match starts at the
first occurrence of the marker text). -/
def findSub (pat : List Char) : List Char → Option Nat
  | [] => if pat.isPrefixOf [] then some 0 else none
  | c :: rest =>
    if pat.isPrefixOf (c :: rest) then some 0
    else (findSub pat rest).map (fun k => k + 1)

/-- Declarative occurrence predicate: the pattern occurs at position `k`. -/
def occursAtB (pat cs : List Char) (k : Nat) : Bool :=
  pat.isPrefixOf (cs.drop k)

/-- Whether the text begins with "--<digits>--" (one or more digits): the
lookahead boundary `--\d+--` of the extraction regex. -/
def isMarkerStart (l : List Char) : Bool :=
  match l with
  | '-' :: '-' :: rest =>
    !(rest.takeWhile Char.isDigit).isEmpty &&
      ((rest.dropWhile Char.isDigit).take 2 == ['-', '-'])
  | _ => false

/-- Index of the first position at which a "--<digits>--" boundary starts,
or the length of the list when there is none: where the lazy group of the
extraction regex stops (next marker or end of input). -/
def findMarkerIdx : List Char → Nat
  | [] => 0
  | c :: rest => if isMarkerStart (c :: rest) then 0 else findMarkerIdx rest + 1

/-- One slot of `parse_queries` (main.py lines 115-122): search for the
first occurrence of the literal marker "--i--"; the payload is the text
from the end of the marker up to the first following "--<digits>--"
boundary or end of input, trimmed. Returns none when the marker does not
occur (the regex fails to match). -/
def parseSlot (content : String) (i : Nat) : Option String :=
  let cs := content.toList
  let m := markerOf i
  match findSub m cs with
  | none => none
  | some j =>
    let rest := cs.drop (j + m.length)
    let p := findMarkerIdx rest
    some (pyStrip (rest.take p)).asString

/-- `parse_queries` (main.py lines 112-123): a mapping over slots
`1..expected_count`; `none` models the Python value None, stored when the
marker is missing (and also returned by dict.get for out-of-range slots). -/
def parse_queries (content : String) (expected_count : Nat) :
    Nat → Option String :=
  fun i =>
    if 1 ≤ i ∧ i ≤ expected_count then parseSlot content i else none

/-- Suffix test over character lists: the embedding of Python
str.endswith. -/
def strEndsWith (s t : String) : Bool :=
  t.toList.isSuffixOf s.toList

/-- One slot of `check_format` (check_format.py lines 50-71): the same
extraction regex, then the verdict flag appended to `results` and the
message printed for that slot. -/
def check_format_slot (content : String) (i : Nat) : Bool × String :=
  match parseSlot content i with
  | none => (false, "Marker --" ++ Nat.repr i ++ "-- is missing.")
  | some q =>
    if q = "" then
      (false, "Marker --" ++ Nat.repr i ++ "-- found, but no query follows it.")
    else if strEndsWith q ";" then (true, "Correctly formatted.")
    else (true, "Marker found, but query might be missing a semicolon.")

-- ---------------------------------------------------------------------------
-- Student identifiers

/-- Remove every occurrence of ".sql", scanning left to right: the
embedding of Python str.replace(".sql", "") used by both entry points.
Lists shorter than four characters cannot contain the pattern and are
returned unchanged. -/
def stripSqlAux : List Char → List Char
  | [] => []
  | [a] => [a]
  | [a, b] => [a, b]
  | [a, b, c] => [a, b, c]
  | a :: b :: c :: d :: rest =>
    if a = '.' ∧ b = 's' ∧ c = 'q' ∧ d = 'l' then stripSqlAux rest
    else a :: stripSqlAux (b :: c :: d :: rest)

/-- The identifier the grading engine scores under
(main.py line 167): `file.replace(".sql", "")`, with no case conversion. -/
def scoring_student_id (file : String) : String :=
  (stripSqlAux file.toList).asString

/-- Upper-casing a string character by character: the embedding of Python
str.upper over the ASCII filenames at hand. -/
def pyUpper (s : String) : String :=
  (s.toList.map Char.toUpper).asString

/-- The identifier the upload app tracks under (app.py line 188):
`filename.replace(".sql", "").upper()`. -/
def tracking_student_id (file : String) : String :=
  pyUpper ((stripSqlAux file.toList).asString)

/-- The character class [A-Z0-9] under re.IGNORECASE. -/
def isAlnumCI (c : Char) : Bool := c.isDigit || c.isUpper || c.isLower

/-- The anchored filename pattern of `is_valid_student_id_file`
(check_format.py lines 25-27) on an exact character list:
4 digits, 4 alphanumerics, 4 digits, one letter, then ".sql"
(case-insensitively, since the whole match ignores case). -/
def validCore : List Char → Bool
  | [d1, d2, d3, d4, a1, a2, a3, a4, e1, e2, e3, e4, x, p1, p2, p3, p4] =>
    d1.isDigit && d2.isDigit && d3.isDigit && d4.isDigit &&
    isAlnumCI a1 && isAlnumCI a2 && isAlnumCI a3 && isAlnumCI a4 &&
    e1.isDigit && e2.isDigit && e3.isDigit && e4.isDigit &&
    (x.isUpper || x.isLower) &&
    (p1 == '.') && (p2 == 's' || p2 == 'S') && (p3 == 'q' || p3 == 'Q') &&
    (p4 == 'l' || p4 == 'L')
  | _ => false

/-- `is_valid_student_id_file` (check_format.py lines 25-27): the regex is
anchored with `$`, which in Python also matches just before one trailing
newline, so a single trailing newline is tolerated. -/
def is_valid_student_id_file (filename : String) : Bool :=
  let l := filename.toList
  validCore l ||
    (match l.getLast? with
     | some c => (c == '\n') && validCore l.dropLast
     | none => false)

-- ---------------------------------------------------------------------------
-- Extraction lemmas

theorem findSub_some (pat : List Char) :
    ∀ (cs : List Char) (j : Nat), findSub pat cs = some j →
      occursAtB pat cs j = true ∧ ∀ k, k < j → occursAtB pat cs k = false
  | [], j, h => by
    unfold findSub at h
    by_cases hp : pat.isPrefixOf ([] : List Char) = true
    · rw [if_pos hp] at h
      cases h
      refine ⟨hp, ?_⟩
      intro k hk
      omega
    · rw [if_neg hp] at h
      cases h
  | c :: rest, j, h => by
    unfold findSub at h
    by_cases hp : pat.isPrefixOf (c :: rest) = true
    · rw [if_pos hp] at h
      cases h
      refine ⟨hp, ?_⟩
      intro k hk
      omega
    · rw [if_neg hp] at h
      rw [Option.map_eq_some'] at h
      obtain ⟨j0, hj0, hj⟩ := h
      have ih := findSub_some pat rest j0 hj0
      subst hj
      constructor
      · show pat.isPrefixOf ((c :: rest).drop (j0 + 1)) = true
        simpa [occursAtB] using ih.1
      · intro k hk
        cases k with
        | zero =>
          show pat.isPrefixOf (c :: rest) = false
          exact Bool.eq_false_iff.mpr hp
        | succ k0 =>
          show pat.isPrefixOf ((c :: rest).drop (k0 + 1)) = false
          have := ih.2 k0 (by omega)
          simpa [occursAtB] using this

theorem findSub_isSome (pat : List Char) :
    ∀ (cs : List Char) (k : Nat), occursAtB pat cs k = true →
      (findSub pat cs).isSome = true
  | [], k, h => by
    unfold occursAtB at h
    rw [List.drop_nil] at h
    unfold findSub
    rw [if_pos h]
    rfl
  | c :: rest, k, h => by
    unfold findSub
    by_cases hp : pat.isPrefixOf (c :: rest) = true
    · rw [if_pos hp]
      rfl
    · rw [if_neg hp]
      cases k with
      | zero =>
        unfold occursAtB at h
        simp only [List.drop_zero] at h
        exact absurd h hp
      | succ k0 =>
        have := findSub_isSome pat rest k0 (by simpa [occursAtB] using h)
        cases hf : findSub pat rest with
        | none =>
          rw [hf] at this
          cases this
        | some j => rfl

theorem findMarkerIdx_spec :
    ∀ l : List Char,
      findMarkerIdx l ≤ l.length ∧
      (∀ q, q < findMarkerIdx l → isMarkerStart (l.drop q) = false) ∧
      (findMarkerIdx l = l.length ∨
        isMarkerStart (l.drop (findMarkerIdx l)) = true)
  | [] => by
    refine ⟨by simp [findMarkerIdx], ?_, Or.inl (by simp [findMarkerIdx])⟩
    intro q hq
    simp [findMarkerIdx] at hq
  | c :: rest => by
    have ih := findMarkerIdx_spec rest
    unfold findMarkerIdx
    by_cases hm : isMarkerStart (c :: rest) = true
    · rw [if_pos hm]
      refine ⟨by simp, ?_, Or.inr hm⟩
      intro q hq
      omega
    · rw [if_neg hm]
      refine ⟨by simp; omega, ?_, ?_⟩
      · intro q hq
        cases q with
        | zero => exact Bool.eq_false_iff.mpr hm
        | succ q0 =>
          show isMarkerStart (rest.drop q0) = false
          exact ih.2.1 q0 (by omega)
      · rcases ih.2.2 with hend | hmark
        · left
          simp [hend]
        · right
          show isMarkerStart (rest.drop (findMarkerIdx rest)) = true
          exact hmark

-- ---------------------------------------------------------------------------
-- Claim C2

/-- Claim C2: for every expected count of at least one and every file text in
which each marker "--1--" .. "--N--" occurs, extraction yields a mapping with
no absent slot; slot i is bound to the whitespace-trimmed text between the
first occurrence of the literal marker "--i--" (all earlier positions carry
no occurrence) and the first following position at which a marker of the
form "--<digits>--" begins (no earlier following position is such a
boundary), or end of file when there is none. Only the first occurrence of a
repeated marker is used, which is exactly the first-occurrence property
stated here. -/
theorem c2_extraction (content : String) (n : Nat) (hn : 1 ≤ n)
    (hm : ∀ i, 1 ≤ i → i ≤ n →
      ∃ k, occursAtB (markerOf i) content.toList k = true) :
    ∀ i, 1 ≤ i → i ≤ n →
      ∃ j p,
        occursAtB (markerOf i) content.toList j = true ∧
        (∀ k, k < j → occursAtB (markerOf i) content.toList k = false) ∧
        (∀ q, q < p →
          isMarkerStart
            ((content.toList.drop (j + (markerOf i).length)).drop q) = false) ∧
        (p = (content.toList.drop (j + (markerOf i).length)).length ∨
          isMarkerStart
            ((content.toList.drop (j + (markerOf i).length)).drop p) = true) ∧
        parse_queries content n i =
          some ((pyStrip
            ((content.toList.drop (j + (markerOf i).length)).take p)).asString) := by
  intro i h1 h2
  obtain ⟨k, hk⟩ := hm i h1 h2
  have hsome := findSub_isSome (markerOf i) content.toList k hk
  obtain ⟨j, hj⟩ := Option.isSome_iff_exists.mp hsome
  have hfirst := findSub_some (markerOf i) content.toList j hj
  refine ⟨j, findMarkerIdx (content.toList.drop (j + (markerOf i).length)),
    hfirst.1, hfirst.2, ?_, ?_, ?_⟩
  · exact (findMarkerIdx_spec _).2.1
  · exact (findMarkerIdx_spec _).2.2
  · unfold parse_queries
    rw [if_pos ⟨h1, h2⟩]
    simp only [parseSlot]
    rw [hj]

/-- Witness for C2 on a concrete two-marker file. -/
theorem c2_extraction_witness :
    ∃ j p,
      occursAtB (markerOf 1)
        ("--1--\nSELECT 1;\n--2--\nSELECT 2;" : String).toList j = true ∧
      (∀ k, k < j → occursAtB (markerOf 1)
        ("--1--\nSELECT 1;\n--2--\nSELECT 2;" : String).toList k = false) ∧
      (∀ q, q < p →
        isMarkerStart
          ((("--1--\nSELECT 1;\n--2--\nSELECT 2;" : String).toList.drop
            (j + (markerOf 1).length)).drop q) = false) ∧
      (p = (("--1--\nSELECT 1;\n--2--\nSELECT 2;" : String).toList.drop
          (j + (markerOf 1).length)).length ∨
        isMarkerStart
          ((("--1--\nSELECT 1;\n--2--\nSELECT 2;" : String).toList.drop
            (j + (markerOf 1).length)).drop p) = true) ∧
      parse_queries "--1--\nSELECT 1;\n--2--\nSELECT 2;" 2 1 =
        some ((pyStrip
          ((("--1--\nSELECT 1;\n--2--\nSELECT 2;" : String).toList.drop
            (j + (markerOf 1).length)).take p)).asString) := by
  refine c2_extraction "--1--\nSELECT 1;\n--2--\nSELECT 2;" 2 (by decide)
    ?_ 1 (by decide) (by decide)
  intro i h1 h2
  interval_cases i
  · exact ⟨0, by decide⟩
  · exact ⟨16, by decide⟩

-- ---------------------------------------------------------------------------
-- Claim C6

theorem stripSqlAux_append_sql :
    ∀ l : List Char, (∀ c ∈ l, c ≠ '.') →
      stripSqlAux (l ++ ['.', 's', 'q', 'l']) = l
  | [], _ => by decide
  | a :: l2, h => by
    have ha : a ≠ '.' := h a (by simp)
    have ih := stripSqlAux_append_sql l2 (fun x hx => h x (by simp [hx]))
    cases l2 with
    | nil =>
      show stripSqlAux (a :: '.' :: 's' :: 'q' :: 'l' :: []) = [a]
      rw [stripSqlAux]
      rw [if_neg (fun hand => ha hand.1)]
      have h0 : stripSqlAux ['.', 's', 'q', 'l'] = [] := by decide
      rw [h0]
    | cons b l3 =>
      cases l3 with
      | nil =>
        show stripSqlAux (a :: b :: '.' :: 's' :: 'q' :: 'l' :: []) = [a, b]
        rw [stripSqlAux]
        rw [if_neg (fun hand => ha hand.1)]
        have ih2 : stripSqlAux (b :: '.' :: 's' :: 'q' :: 'l' :: []) = [b] := by
          simpa using ih
        rw [ih2]
      | cons c l4 =>
        cases l4 with
        | nil =>
          show stripSqlAux (a :: b :: c :: '.' :: 's' :: 'q' :: 'l' :: []) =
            [a, b, c]
          rw [stripSqlAux]
          rw [if_neg (fun hand => ha hand.1)]
          have ih2 : stripSqlAux (b :: c :: '.' :: 's' :: 'q' :: 'l' :: []) =
              [b, c] := by
            simpa using ih
          rw [ih2]
        | cons d l5 =>
          show stripSqlAux (a :: b :: c :: d :: (l5 ++ ['.', 's', 'q', 'l'])) =
            a :: b :: c :: d :: l5
          rw [stripSqlAux]
          rw [if_neg (fun hand => ha hand.1)]
          have ih2 : stripSqlAux (b :: c :: d :: (l5 ++ ['.', 's', 'q', 'l'])) =
              b :: c :: d :: l5 := by
            simpa using ih
          rw [ih2]

/-- Claim C6 (amended): the tracking identifier of the upload app is the
upper-cased form of the grading identifier, and for a filename built as a
dot-free stem followed by ".sql" the grading identifier is the stem with its
case preserved while the tracking identifier is the upper-cased stem. -/
theorem c6_identifiers :
    (∀ f : String, tracking_student_id f = pyUpper (scoring_student_id f)) ∧
    (∀ stem : String, (∀ c ∈ stem.toList, c ≠ '.') →
      scoring_student_id (stem ++ ".sql") = stem ∧
      tracking_student_id (stem ++ ".sql") = pyUpper stem) := by
  constructor
  · intro f
    rfl
  · intro stem hstem
    have hlist : (stem ++ ".sql").toList = stem.toList ++ ['.', 's', 'q', 'l'] :=
      rfl
    have hs : scoring_student_id (stem ++ ".sql") = stem := by
      unfold scoring_student_id
      rw [hlist, stripSqlAux_append_sql stem.toList hstem,
        String.asString_toList]
    refine ⟨hs, ?_⟩
    show pyUpper ((stripSqlAux (stem ++ ".sql").toList).asString) = pyUpper stem
    have : (stripSqlAux (stem ++ ".sql").toList).asString = stem := hs
    rw [this]

/-- Witness for C6 (amended) at a concrete stem. -/
theorem c6_identifiers_witness :
    scoring_student_id ("2023A7PS0043H" ++ ".sql") = "2023A7PS0043H" ∧
    tracking_student_id ("2023A7PS0043H" ++ ".sql") = pyUpper "2023A7PS0043H" :=
  c6_identifiers.2 "2023A7PS0043H" (by decide)

/-- Counterexample to C6 as stated: the filename "2023a7ps0043h.sql" is a
valid submission filename (the pattern is case-insensitive), but the
identifier the grading engine scores under is the stem with its case
preserved, not the upper-cased stem used for tracking. -/
theorem c6_counterexample :
    is_valid_student_id_file "2023a7ps0043h.sql" = true ∧
    scoring_student_id "2023a7ps0043h.sql" = "2023a7ps0043h" ∧
    scoring_student_id "2023a7ps0043h.sql" ≠
      tracking_student_id "2023a7ps0043h.sql" := by
  refine ⟨by decide, ?_, ?_⟩
  · decide
  · decide

-- ---------------------------------------------------------------------------
-- Database state, execution capability, and the orchestrator (main.py main)

/-- The database state visible through the execution capability: the
user-owned tables with their contents. -/
structure DBState where
  tables : List (String × List Row)
deriving DecidableEq

/-- Result of executing one statement: column names and rows. -/
abbrev QueryOut := List String × List Row

/-- The external execution capability (spec section 6): a statement either
executes, returning columns, rows and the mutated state, or raises with a
driver-specific message (modelling a Python exception). -/
abbrev Exec := String → DBState → Except String (QueryOut × DBState)

/-- The effect of one `DROP TABLE "name" PURGE` on the model state. -/
def dropTable (name : String) (s : DBState) : DBState :=
  ⟨s.tables.filter (fun t => t.1 != name)⟩

/-- `drop_all_tables` (main.py lines 103-109): enumerate the user-owned
tables, then drop each one in turn. -/
def drop_all_tables (s : DBState) : DBState :=
  (s.tables.map Prod.fst).foldl (fun st nm => dropTable nm st) s

/-- Split a character list on every ";" (Python str.split(";")). -/
def splitSemiAux : List Char → List Char → List (List Char)
  | [], acc => [acc.reverse]
  | c :: rest, acc =>
    if c = ';' then acc.reverse :: splitSemiAux rest []
    else splitSemiAux rest (c :: acc)

/-- Statement segmentation of `run_sql_script` (main.py line 39): split the
script on ";", strip each piece, drop the empty ones. The simple splitter
ignores string literals, exactly as the source does. -/
def statements (script : String) : List String :=
  ((splitSemiAux script.toList []).map (fun l => (pyStrip l).asString)).filter
    (fun s => s != "")

/-- `run_sql_script` (main.py lines 33-45): execute each statement in order,
swallowing exceptions (Oracle lacks IF NOT EXISTS, so setup errors are
ignored); a failing statement leaves the state unchanged. -/
def run_sql_script (exec : Exec) (script : String) (st : DBState) : DBState :=
  (statements script).foldl
    (fun s stmt =>
      match exec stmt s with
      | Except.ok (_, s2) => s2
      | Except.error _ => s) st

/-- `fetch_query_result` (main.py lines 48-54): a falsy sql yields None
without touching the database; otherwise execute it and return columns and
rows, letting any exception propagate to the caller. -/
def fetch_query_result (exec : Exec) (sql : String) (st : DBState) :
    Except String (Option QueryOut × DBState) :=
  if sql = "" then Except.ok (none, st)
  else
    match exec sql st with
    | Except.error e => Except.error e
    | Except.ok (out, st2) => Except.ok (some out, st2)

/-- The canonical state every query runs against: all user tables dropped,
then the schema script replayed against the empty state (the "fresh schema"
of spec section 4.2). -/
def freshState (exec : Exec) (schema : String) : DBState :=
  run_sql_script exec schema ⟨[]⟩

/-- Outcome of grading one slot: the PASS/FAIL status, the log lines written
for the slot, the database states at which a query was handed to the
execution capability (instrumentation for the isolation property), and the
state left behind. -/
structure SlotOut where
  status : String
  log : List String
  qstates : List DBState
  state : DBState
deriving DecidableEq

/-- The closing log lines of every slot (main.py lines 222-223). -/
def finalLines (status : String) : List String :=
  ["FINAL STATUS: " ++ status ++ "\n", "--------------------\n\n"]

/-- Log rendering of an optional normalized result (main.py lines 202 and
206): "N/A" when the expected result is absent. -/
def prettyOpt (r : Option NRes) : String :=
  match r with
  | some p => pretty_result p.1 (some p.2)
  | none => "N/A"

/-- The body of the per-slot loop of the per-submission phase
(main.py lines 183-223), applied to the state `st1` that the schema reset
produced. `sql?` is the extracted slot value (`none`: marker missing;
`some ""`: marker present with empty payload — both are falsy in Python and
take the same branch). A raising execution is caught here, at the slot
boundary, and converted to status FAIL plus log text carrying the exception
detail. The `Except.ok (none, _)` branch is unreachable for a nonempty sql
(`fetch_query_result` only returns None for falsy sql); Python would raise
on tuple-unpacking None and the slot handler would catch it. -/
def gradeSlotRun (exec : Exec) (i : Nat) (expected : Option NRes)
    (sql : String) (st1 : DBState) : SlotOut :=
  let l0 : List String := ["--- QUERY " ++ Nat.repr i ++ " ---\n"]
  match fetch_query_result exec sql st1 with
  | Except.error e =>
    ⟨"FAIL", l0 ++ ["SQL ERROR:\n", e ++ "\n\n"] ++ finalLines "FAIL",
      [st1], st1⟩
  | Except.ok (none, st2) =>
    ⟨"FAIL", l0 ++ ["SQL ERROR:\n",
      "TypeError: cannot unpack non-iterable NoneType object\n\n"] ++
      finalLines "FAIL", [st1], st2⟩
  | Except.ok (some (act_cols, act_rows), st2) =>
    let actual := normalize_result act_cols (some act_rows)
    let d := diff_results expected actual
    let lexp : List String :=
      ["EXPECTED OUTPUT:\n", prettyOpt expected, "\n\n"]
    let lstud : List String :=
      ["STUDENT OUTPUT:\n", prettyOpt actual, "\n\n"]
    if d = "" then
      ⟨"PASS", l0 ++ lexp ++ lstud ++ ["RESULT: PASS\n"] ++
        finalLines "PASS", [st1], st2⟩
    else
      ⟨"FAIL", l0 ++ lexp ++ lstud ++ ["DIFF:\n", d ++ "\n"] ++
        finalLines "FAIL", [st1], st2⟩

def gradeSlotCore (exec : Exec) (i : Nat) (expected : Option NRes) :
    Option String → DBState → SlotOut
  | none, st1 =>
    ⟨"FAIL", ["--- QUERY " ++ Nat.repr i ++ " ---\n"] ++
      ["STATUS: FAIL (Marker not found or empty)\n\n"] ++
      finalLines "FAIL", [], st1⟩
  | some sql, st1 =>
    if sql = "" then
      ⟨"FAIL", ["--- QUERY " ++ Nat.repr i ++ " ---\n"] ++
        ["STATUS: FAIL (Marker not found or empty)\n\n"] ++
        finalLines "FAIL", [], st1⟩
    else gradeSlotRun exec i expected sql st1

/-- One slot of the per-submission loop: schema reset first
(main.py lines 187-189), then the slot body. -/
def gradeSlot (exec : Exec) (schema : String) (i : Nat)
    (expected : Option NRes) (sql? : Option String) (st : DBState) : SlotOut :=
  gradeSlotCore exec i expected sql?
    (run_sql_script exec schema (drop_all_tables st))

/-- Outcome of one slot of the expected-result phase. -/
structure P1Out where
  val : Option NRes
  qstates : List DBState
  state : DBState
deriving DecidableEq

/-- The body of one slot of the expected-result phase
(main.py lines 146-156), applied to the state the schema reset produced:
a missing or falsy model query, or a raising execution, leaves the slot
with no expected result. -/
def phase1SlotRun (exec : Exec) (sql : String) (st1 : DBState) : P1Out :=
  match fetch_query_result exec sql st1 with
  | Except.error _ => ⟨none, [st1], st1⟩
  | Except.ok (none, st2) => ⟨none, [st1], st2⟩
  | Except.ok (some (cols, rows), st2) =>
    ⟨normalize_result cols (some rows), [st1], st2⟩

def phase1SlotCore (exec : Exec) : Option String → DBState → P1Out
  | none, st1 => ⟨none, [], st1⟩
  | some sql, st1 =>
    if sql = "" then ⟨none, [], st1⟩
    else phase1SlotRun exec sql st1

/-- One slot of the expected-result phase: schema reset first
(main.py lines 142-144), then the slot body. -/
def phase1Slot (exec : Exec) (schema : String) (sql? : Option String)
    (st : DBState) : P1Out :=
  phase1SlotCore exec sql? (run_sql_script exec schema (drop_all_tables st))

/-- Accumulated outcome of the expected-result phase. -/
structure Phase1Out where
  vals : List (Option NRes)
  qstates : List DBState
  state : DBState
deriving DecidableEq

/-- The expected-result loop over the given slot numbers
(main.py lines 142-156). -/
def phase1Go (exec : Exec) (schema : String) (mq : Nat → Option String) :
    List Nat → DBState → Phase1Out
  | [], st => ⟨[], [], st⟩
  | i :: is, st =>
    let s := phase1Slot exec schema (mq i) st
    let r := phase1Go exec schema mq is s.state
    ⟨s.val :: r.vals, s.qstates ++ r.qstates, r.state⟩

/-- `expected_results.get(i)` (main.py line 197): the cached expected result
of slot `i` (slots are 1-based; the list is 0-based). -/
def expectedGet (l : List (Option NRes)) (i : Nat) : Option NRes :=
  match l[i - 1]? with
  | some v => v
  | none => none

/-- Accumulated outcome of grading one submission. -/
structure SubOut where
  statuses : List String
  log : List String
  qstates : List DBState
  state : DBState
deriving DecidableEq

/-- The per-slot loop of one submission (main.py lines 183-223). -/
def gradeGo (exec : Exec) (schema : String) (expected : List (Option NRes))
    (queries : Nat → Option String) : List Nat → DBState → SubOut
  | [], st => ⟨[], [], [], st⟩
  | i :: is, st =>
    let s := gradeSlot exec schema i (expectedGet expected i) (queries i) st
    let r := gradeGo exec schema expected queries is s.state
    ⟨s.status :: r.statuses, s.log ++ r.log, s.qstates ++ r.qstates, r.state⟩

/-- Grading one submission (main.py lines 163-223): parse its queries once,
write the log header, then run every slot `1..n`. -/
def gradeSubmission (exec : Exec) (schema : String) (n : Nat)
    (expected : List (Option NRes)) (sid : String) (content : String)
    (st : DBState) : SubOut :=
  let core := gradeGo exec schema expected (parse_queries content n)
    (List.range' 1 n) st
  ⟨core.statuses,
    ["STUDENT ID: " ++ sid ++ "\n", "==============================\n\n"] ++
      core.log,
    core.qstates, core.state⟩

/-- The Score Row of one submission (main.py lines 225-232): identifier,
one status per slot in order, then "<passed>/<N>". -/
def buildRow (sid : String) (statuses : List String) (n : Nat) : List String :=
  let pass_count := statuses.count "PASS"
  ([sid] ++ statuses) ++ [Nat.repr pass_count ++ "/" ++ Nat.repr n]

/-- Accumulated outcome of the submission loop. -/
structure BatchOut where
  rows : List (List String)
  logs : List (List String)
  qstates : List DBState
  state : DBState
deriving DecidableEq

/-- The submission loop (main.py lines 163-232), over the directory listing
(the source sorts the listing first; the loop here receives it in that
order). Every submission contributes exactly one score row and one log. -/
def batchGo (exec : Exec) (schema : String) (n : Nat)
    (expected : List (Option NRes)) :
    List (String × String) → DBState → BatchOut
  | [], st => ⟨[], [], [], st⟩
  | f :: fs, st =>
    let sid := scoring_student_id f.1
    let sub := gradeSubmission exec schema n expected sid f.2 st
    let r := batchGo exec schema n expected fs sub.state
    ⟨buildRow sid sub.statuses n :: r.rows, sub.log :: r.logs,
      sub.qstates ++ r.qstates, r.state⟩

/-- Everything `main` produces that the claims talk about. -/
structure RunOut where
  expected : List (Option NRes)
  header : List String
  rows : List (List String)
  logs : List (List String)
  queryStates : List DBState
  state : DBState
deriving DecidableEq

/-- `main` (main.py lines 126-244): compute the expected results (schema
reset before every model query), drop all tables once more (line 159), then
grade every ".sql" file of the listing; finally the CSV header and rows.
Commits are no-ops on the model state and are omitted. `queryStates`
collects the states at which any query (model or student) was handed to the
execution capability. -/
def mainRun (exec : Exec) (schema model : String) (n : Nat)
    (subs : List (String × String)) (st0 : DBState) : RunOut :=
  let p1 := phase1Go exec schema (parse_queries model n) (List.range' 1 n) st0
  let st1 := drop_all_tables p1.state
  let files := subs.filter (fun f => strEndsWith f.1 ".sql")
  let b := batchGo exec schema n p1.vals files st1
  ⟨p1.vals,
    ["StudentID"] ++ (List.range' 1 n).map (fun i => "Q" ++ Nat.repr i) ++
      ["Total"],
    b.rows, b.logs, p1.qstates ++ b.qstates, b.state⟩

-- ---------------------------------------------------------------------------
-- Reset and isolation lemmas

theorem dropFold_tables_nil :
    ∀ (l : List String) (s : DBState),
      (∀ t ∈ s.tables, t.1 ∈ l) →
      (l.foldl (fun st nm => dropTable nm st) s).tables = []
  | [], s, h => by
    cases hs : s.tables with
    | nil => simpa [List.foldl] using hs
    | cons t ts =>
      exfalso
      have := h t (by rw [hs]; exact List.mem_cons_self t ts)
      simp at this
  | nm :: l, s, h => by
    show (l.foldl (fun st n2 => dropTable n2 st) (dropTable nm s)).tables = []
    apply dropFold_tables_nil l (dropTable nm s)
    intro t ht
    have htmem : t ∈ s.tables ∧ (t.1 != nm) = true := by
      simpa [dropTable, List.mem_filter] using ht
    have h2 := h t htmem.1
    rcases List.mem_cons.mp h2 with he | hl
    · exact absurd he (bne_iff_ne.mp htmem.2)
    · exact hl

theorem drop_all_tables_empty (s : DBState) : drop_all_tables s = ⟨[]⟩ := by
  have h : (drop_all_tables s).tables = [] :=
    dropFold_tables_nil (s.tables.map Prod.fst) s
      (fun t ht => List.mem_map_of_mem Prod.fst ht)
  have heta : drop_all_tables s = ⟨(drop_all_tables s).tables⟩ := rfl
  rw [heta, h]

theorem reset_eq (exec : Exec) (schema : String) (st : DBState) :
    run_sql_script exec schema (drop_all_tables st) =
      freshState exec schema := by
  rw [drop_all_tables_empty]
  rfl

theorem gradeSlot_eq (exec : Exec) (schema : String) (i : Nat)
    (expected : Option NRes) (sql? : Option String) (st : DBState) :
    gradeSlot exec schema i expected sql? st =
      gradeSlotCore exec i expected sql? (freshState exec schema) := by
  unfold gradeSlot
  rw [reset_eq]

theorem phase1Slot_eq (exec : Exec) (schema : String) (sql? : Option String)
    (st : DBState) :
    phase1Slot exec schema sql? st =
      phase1SlotCore exec sql? (freshState exec schema) := by
  unfold phase1Slot
  rw [reset_eq]

theorem gradeSlotRun_qstates (exec : Exec) (i : Nat) (expected : Option NRes)
    (sql : String) (st1 : DBState) :
    ∀ s ∈ (gradeSlotRun exec i expected sql st1).qstates, s = st1 := by
  intro s hs
  unfold gradeSlotRun at hs
  rcases hf : fetch_query_result exec sql st1 with e | ⟨out, st2⟩
  · rw [hf] at hs
    simpa using hs
  · rw [hf] at hs
    rcases out with _ | ⟨cols, rows⟩
    · simpa using hs
    · by_cases hd :
        diff_results expected (normalize_result cols (some rows)) = ""
      · simp [hd] at hs
        exact hs
      · simp [hd] at hs
        exact hs

theorem gradeSlotCore_qstates (exec : Exec) (i : Nat) (expected : Option NRes)
    (sql? : Option String) (st1 : DBState) :
    ∀ s ∈ (gradeSlotCore exec i expected sql? st1).qstates, s = st1 := by
  intro s hs
  rcases sql? with _ | sql
  · simp [gradeSlotCore] at hs
  · by_cases hsq : sql = ""
    · simp [gradeSlotCore, hsq] at hs
    · simp only [gradeSlotCore] at hs
      rw [if_neg hsq] at hs
      exact gradeSlotRun_qstates exec i expected sql st1 s hs

theorem phase1SlotCore_qstates (exec : Exec) (sql? : Option String)
    (st1 : DBState) :
    ∀ s ∈ (phase1SlotCore exec sql? st1).qstates, s = st1 := by
  intro s hs
  rcases sql? with _ | sql
  · simp [phase1SlotCore] at hs
  · by_cases hsq : sql = ""
    · simp [phase1SlotCore, hsq] at hs
    · simp only [phase1SlotCore] at hs
      rw [if_neg hsq] at hs
      unfold phase1SlotRun at hs
      rcases hf : fetch_query_result exec sql st1 with e | ⟨out, st2⟩
      · rw [hf] at hs
        simpa using hs
      · rw [hf] at hs
        rcases out with _ | ⟨cols, rows⟩
        · simpa using hs
        · simpa using hs

theorem gradeSlotCore_status (exec : Exec) (i : Nat) (expected : Option NRes)
    (sql? : Option String) (st1 : DBState) :
    (gradeSlotCore exec i expected sql? st1).status = "PASS" ∨
    (gradeSlotCore exec i expected sql? st1).status = "FAIL" := by
  rcases sql? with _ | sql
  · right
    rfl
  · by_cases hsq : sql = ""
    · right
      simp [gradeSlotCore, hsq]
    · simp only [gradeSlotCore]
      rw [if_neg hsq]
      unfold gradeSlotRun
      rcases hf : fetch_query_result exec sql st1 with e | ⟨out, st2⟩
      · right
        rfl
      · rcases out with _ | ⟨cols, rows⟩
        · right
          rfl
        · by_cases hd :
            diff_results expected (normalize_result cols (some rows)) = ""
          · left
            simp [hd]
          · right
            simp [hd]

theorem fetch_error (exec : Exec) (sql : String) (st : DBState) (e : String)
    (hsq : sql ≠ "") (he : exec sql st = Except.error e) :
    fetch_query_result exec sql st = Except.error e := by
  unfold fetch_query_result
  rw [if_neg hsq, he]

theorem gradeSlotCore_error (exec : Exec) (i : Nat) (expected : Option NRes)
    (sql e : String) (st1 : DBState) (hsq : sql ≠ "")
    (he : exec sql st1 = Except.error e) :
    (gradeSlotCore exec i expected (some sql) st1).status = "FAIL" ∧
    (e ++ "\n\n") ∈ (gradeSlotCore exec i expected (some sql) st1).log := by
  simp only [gradeSlotCore]
  rw [if_neg hsq]
  unfold gradeSlotRun
  rw [fetch_error exec sql st1 e hsq he]
  exact ⟨rfl, by simp⟩

-- ---------------------------------------------------------------------------
-- Loop characterizations

theorem gradeGo_spec (exec : Exec) (schema : String)
    (expected : List (Option NRes)) (queries : Nat → Option String) :
    ∀ (l : List Nat) (st : DBState),
      (gradeGo exec schema expected queries l st).statuses =
        l.map (fun i => (gradeSlotCore exec i (expectedGet expected i)
          (queries i) (freshState exec schema)).status) ∧
      (gradeGo exec schema expected queries l st).log =
        (l.map (fun i => (gradeSlotCore exec i (expectedGet expected i)
          (queries i) (freshState exec schema)).log)).flatten ∧
      (gradeGo exec schema expected queries l st).qstates =
        (l.map (fun i => (gradeSlotCore exec i (expectedGet expected i)
          (queries i) (freshState exec schema)).qstates)).flatten
  | [], st => ⟨rfl, rfl, rfl⟩
  | i :: is, st => by
    have ih := gradeGo_spec exec schema expected queries is
      (gradeSlotCore exec i (expectedGet expected i) (queries i)
        (freshState exec schema)).state
    simp only [gradeGo, List.map_cons, List.flatten_cons]
    rw [gradeSlot_eq]
    exact ⟨by rw [ih.1], by rw [ih.2.1], by rw [ih.2.2]⟩

theorem gradeSubmission_spec (exec : Exec) (schema : String) (n : Nat)
    (expected : List (Option NRes)) (sid content : String) (st : DBState) :
    (gradeSubmission exec schema n expected sid content st).statuses =
      (List.range' 1 n).map (fun i => (gradeSlotCore exec i
        (expectedGet expected i) (parse_queries content n i)
        (freshState exec schema)).status) ∧
    (gradeSubmission exec schema n expected sid content st).log =
      ["STUDENT ID: " ++ sid ++ "\n", "==============================\n\n"] ++
        ((List.range' 1 n).map (fun i => (gradeSlotCore exec i
          (expectedGet expected i) (parse_queries content n i)
          (freshState exec schema)).log)).flatten ∧
    (gradeSubmission exec schema n expected sid content st).qstates =
      ((List.range' 1 n).map (fun i => (gradeSlotCore exec i
        (expectedGet expected i) (parse_queries content n i)
        (freshState exec schema)).qstates)).flatten := by
  have h := gradeGo_spec exec schema expected (parse_queries content n)
    (List.range' 1 n) st
  exact ⟨h.1, by simp only [gradeSubmission]; rw [h.2.1], h.2.2⟩

theorem phase1Go_qstates (exec : Exec) (schema : String)
    (mq : Nat → Option String) :
    ∀ (l : List Nat) (st : DBState) (s : DBState),
      s ∈ (phase1Go exec schema mq l st).qstates →
      s = freshState exec schema
  | [], st, s, hs => by simp [phase1Go] at hs
  | i :: is, st, s, hs => by
    simp only [phase1Go] at hs
    rcases List.mem_append.mp hs with h1 | h2
    · rw [phase1Slot_eq] at h1
      exact phase1SlotCore_qstates exec (mq i) (freshState exec schema) s h1
    · exact phase1Go_qstates exec schema mq is _ s h2

theorem batchGo_spec (exec : Exec) (schema : String) (n : Nat)
    (expected : List (Option NRes)) :
    ∀ (fs : List (String × String)) (st : DBState),
      (batchGo exec schema n expected fs st).rows =
        fs.map (fun f => buildRow (scoring_student_id f.1)
          ((List.range' 1 n).map (fun i => (gradeSlotCore exec i
            (expectedGet expected i) (parse_queries f.2 n i)
            (freshState exec schema)).status)) n) ∧
      (batchGo exec schema n expected fs st).logs.length = fs.length ∧
      (∀ s ∈ (batchGo exec schema n expected fs st).qstates,
        s = freshState exec schema)
  | [], st => ⟨rfl, rfl, by intro s hs; simp [batchGo] at hs⟩
  | f :: fs, st => by
    have ih := batchGo_spec exec schema n expected fs
      (gradeSubmission exec schema n expected (scoring_student_id f.1) f.2
        st).state
    have hsub := gradeSubmission_spec exec schema n expected
      (scoring_student_id f.1) f.2 st
    refine ⟨?_, ?_, ?_⟩
    · simp only [batchGo, List.map_cons]
      rw [ih.1, hsub.1]
    · simp only [batchGo, List.length_cons]
      rw [ih.2.1]
    · intro s hs
      simp only [batchGo] at hs
      rcases List.mem_append.mp hs with h1 | h2
      · rw [hsub.2.2] at h1
        rcases List.mem_flatten.mp h1 with ⟨ql, hql, hsq⟩
        rcases List.mem_map.mp hql with ⟨i, _, hqe⟩
        rw [← hqe] at hsq
        exact gradeSlotCore_qstates exec i (expectedGet expected i)
          (parse_queries f.2 n i) (freshState exec schema) s hsq
      · exact ih.2.2 s h2

-- ---------------------------------------------------------------------------
-- Concrete execution capabilities for witnesses

/-- A mutating execution capability: every statement succeeds, returns one
row, and adds a table to the state (so that isolation is observable). -/
def execMut : Exec := fun _ st =>
  Except.ok ((["C"], [[Value.vint 1]]),
    ⟨("T", [[Value.vint 1]]) :: st.tables⟩)

/-- An execution capability that always raises. -/
def execRaise : Exec := fun _ _ =>
  Except.error "ORA-00942: table or view does not exist"

/-- An execution capability that always returns the same single-row result
and leaves the state unchanged. -/
def execConst : Exec := fun _ st =>
  Except.ok ((["C"], [[Value.vint 1]]), st)

-- ---------------------------------------------------------------------------
-- Claim C3

/-- Claim C3: the schema reset (drop every user table, replay the schema
script) runs before the model query of every slot of phase one and before
every student query of every slot of every submission, so every state at
which the orchestrator hands a query to the execution capability is the one
canonical fresh-schema state — a function of the capability and the schema
script only, independent of anything any earlier query mutated. -/
theorem c3_isolation :
    ∀ (exec : Exec) (schema model : String) (n : Nat)
      (subs : List (String × String)) (st0 s : DBState),
      s ∈ (mainRun exec schema model n subs st0).queryStates →
      s = freshState exec schema := by
  intro exec schema model n subs st0 s hs
  simp only [mainRun] at hs
  rcases List.mem_append.mp hs with h1 | h2
  · exact phase1Go_qstates exec schema (parse_queries model n)
      (List.range' 1 n) st0 s h1
  · exact (batchGo_spec exec schema n _ _ _).2.2 s h2

/-- Witness for C3: in a concrete run with a capability that mutates the
state on every execution, a state drawn from the instrumented query states
is still the fresh schema state. -/
theorem c3_isolation_witness :
    (⟨[]⟩ : DBState) = freshState execMut "" :=
  c3_isolation execMut "" "--1--\nSELECT X FROM T" 1
    [("A.sql", "--1--\nSELECT Y FROM T")] ⟨[]⟩ ⟨[]⟩ (by decide)

-- ---------------------------------------------------------------------------
-- Claim C4

/-- Claim C4: an exception raised while executing a slot is caught at the
slot boundary — the slot is scored FAIL and the exception detail lands in
the log — and grading continues: the submission still produces one verdict
(PASS or FAIL) for every slot `1..n`, and the batch still produces one score
row and one log per ".sql" file, whatever the capability raises. -/
theorem c4_error_containment :
    (∀ (exec : Exec) (schema : String) (n : Nat)
        (expected : List (Option NRes)) (sid content : String) (st : DBState)
        (i : Nat) (sql e : String),
      1 ≤ i → i ≤ n →
      parse_queries content n i = some sql → sql ≠ "" →
      exec sql (freshState exec schema) = Except.error e →
      ((gradeSubmission exec schema n expected sid content st).statuses.length
          = n ∧
       (gradeSubmission exec schema n expected sid content
          st).statuses[i - 1]? = some "FAIL" ∧
       (e ++ "\n\n") ∈
         (gradeSubmission exec schema n expected sid content st).log ∧
       (∀ j, 1 ≤ j → j ≤ n →
         (gradeSubmission exec schema n expected sid content
            st).statuses[j - 1]? = some "PASS" ∨
         (gradeSubmission exec schema n expected sid content
            st).statuses[j - 1]? = some "FAIL"))) ∧
    (∀ (exec : Exec) (schema model : String) (n : Nat)
        (subs : List (String × String)) (st0 : DBState),
      (mainRun exec schema model n subs st0).rows.length =
        (subs.filter (fun f => strEndsWith f.1 ".sql")).length ∧
      (mainRun exec schema model n subs st0).logs.length =
        (subs.filter (fun f => strEndsWith f.1 ".sql")).length) := by
  constructor
  · intro exec schema n expected sid content st i sql e h1 h2 hq hsq he
    have hspec := gradeSubmission_spec exec schema n expected sid content st
    have hidx : ∀ j, 1 ≤ j → j ≤ n →
        (gradeSubmission exec schema n expected sid content
          st).statuses[j - 1]? =
          some ((gradeSlotCore exec j (expectedGet expected j)
            (parse_queries content n j) (freshState exec schema)).status) := by
      intro j hj1 hj2
      rw [hspec.1, List.getElem?_map,
        @List.getElem?_range' 1 1 (j - 1) n (by omega)]
      have hje : 1 + 1 * (j - 1) = j := by omega
      rw [hje]
      rfl
    refine ⟨?_, ?_, ?_, ?_⟩
    · rw [hspec.1, List.length_map, List.length_range']
    · rw [hidx i h1 h2, hq]
      exact congrArg some ((gradeSlotCore_error exec i (expectedGet expected i)
        sql e (freshState exec schema) hsq he).1)
    · rw [hspec.2.1]
      apply List.mem_append_right
      rw [List.mem_flatten]
      refine ⟨(gradeSlotCore exec i (expectedGet expected i)
        (parse_queries content n i) (freshState exec schema)).log, ?_, ?_⟩
      · exact List.mem_map_of_mem _ (List.mem_range'_1.mpr ⟨h1, by omega⟩)
      · rw [hq]
        exact (gradeSlotCore_error exec i (expectedGet expected i) sql e
          (freshState exec schema) hsq he).2
    · intro j hj1 hj2
      rw [hidx j hj1 hj2]
      rcases gradeSlotCore_status exec j (expectedGet expected j)
        (parse_queries content n j) (freshState exec schema) with hst | hst
      · left
        rw [hst]
      · right
        rw [hst]
  · intro exec schema model n subs st0
    have hb := batchGo_spec exec schema n
      (phase1Go exec schema (parse_queries model n) (List.range' 1 n)
        st0).vals
      (subs.filter (fun f => strEndsWith f.1 ".sql"))
      (drop_all_tables (phase1Go exec schema (parse_queries model n)
        (List.range' 1 n) st0).state)
    constructor
    · simp only [mainRun]
      rw [hb.1, List.length_map]
    · simp only [mainRun]
      rw [hb.2.1]

/-- Witness for C4 with an always-raising capability: the single slot is
FAIL, the detail is logged, and the submission still has a verdict for every
slot. -/
theorem c4_error_containment_witness :
    (gradeSubmission execRaise "" 1 [none] "S1" "--1--\nSELECT A FROM T"
      ⟨[]⟩).statuses.length = 1 ∧
    (gradeSubmission execRaise "" 1 [none] "S1" "--1--\nSELECT A FROM T"
      ⟨[]⟩).statuses[1 - 1]? = some "FAIL" ∧
    ("ORA-00942: table or view does not exist" ++ "\n\n") ∈
      (gradeSubmission execRaise "" 1 [none] "S1" "--1--\nSELECT A FROM T"
        ⟨[]⟩).log ∧
    (∀ j, 1 ≤ j → j ≤ 1 →
      (gradeSubmission execRaise "" 1 [none] "S1" "--1--\nSELECT A FROM T"
        ⟨[]⟩).statuses[j - 1]? = some "PASS" ∨
      (gradeSubmission execRaise "" 1 [none] "S1" "--1--\nSELECT A FROM T"
        ⟨[]⟩).statuses[j - 1]? = some "FAIL") :=
  c4_error_containment.1 execRaise "" 1 [none] "S1" "--1--\nSELECT A FROM T"
    ⟨[]⟩ 1 "SELECT A FROM T" "ORA-00942: table or view does not exist"
    (by decide) (by decide) (by decide) (by decide) rfl

-- ---------------------------------------------------------------------------
-- Claim C9

/-- Claim C9: the report header is StudentID, Q1..QN, Total, and every score
row is the identifier, one PASS/FAIL verdict per slot in order, then a total
cell "<passed>/<N>" where passed counts the PASS verdicts of that row — so
the row length is always N + 2. -/
theorem c9_score_rows :
    ∀ (exec : Exec) (schema model : String) (n : Nat)
      (subs : List (String × String)) (st0 : DBState),
      (mainRun exec schema model n subs st0).header =
        ["StudentID"] ++
          (List.range' 1 n).map (fun i => "Q" ++ Nat.repr i) ++ ["Total"] ∧
      ∀ row ∈ (mainRun exec schema model n subs st0).rows,
        ∃ sid sts, sts.length = n ∧
          (∀ s ∈ sts, s = "PASS" ∨ s = "FAIL") ∧
          row = ([sid] ++ sts) ++
            [Nat.repr (sts.count "PASS") ++ "/" ++ Nat.repr n] ∧
          row.length = n + 2 := by
  intro exec schema model n subs st0
  constructor
  · simp only [mainRun]
  · intro row hrow
    simp only [mainRun] at hrow
    rw [(batchGo_spec exec schema n _ _ _).1] at hrow
    rcases List.mem_map.mp hrow with ⟨f, _, hfe⟩
    refine ⟨scoring_student_id f.1,
      (List.range' 1 n).map (fun i => (gradeSlotCore exec i
        (expectedGet (phase1Go exec schema (parse_queries model n)
          (List.range' 1 n) st0).vals i) (parse_queries f.2 n i)
        (freshState exec schema)).status), ?_, ?_, ?_, ?_⟩
    · rw [List.length_map, List.length_range']
    · intro s hsmem
      rcases List.mem_map.mp hsmem with ⟨i, _, hie⟩
      rw [← hie]
      exact gradeSlotCore_status exec i _ _ _
    · rw [← hfe]
      rfl
    · rw [← hfe]
      simp [buildRow, List.length_append]

/-- Witness for C9 on a concrete one-slot run whose single submission
passes: its score row is the identifier, the verdict, and the total. -/
theorem c9_score_rows_witness :
    ∃ sid sts, sts.length = 1 ∧
      (∀ s ∈ sts, s = "PASS" ∨ s = "FAIL") ∧
      (["A", "PASS", "1/1"] : List String) = ([sid] ++ sts) ++
        [Nat.repr (sts.count "PASS") ++ "/" ++ Nat.repr 1] ∧
      (["A", "PASS", "1/1"] : List String).length = 1 + 2 :=
  (c9_score_rows execConst "" "--1--\nQ1" 1 [("A.sql", "--1--\nQ1")]
    ⟨[]⟩).2 ["A", "PASS", "1/1"] (by decide)

-- ---------------------------------------------------------------------------
-- Claim C5

/-- Claim C5 (amended): a marker followed only by whitespace extracts as an
empty payload and a missing marker extracts as absent — two distinct parse
values, both falsy — and both are scored FAIL; the format checker's
per-slot messages distinguish the two cases, but the grading engine takes
the same branch for both and its log output is identical (the combined
message "Marker not found or empty"). -/
theorem c5_absent_handling :
    (∀ (exec : Exec) (schema : String) (i : Nat) (expected : Option NRes)
        (st : DBState),
      gradeSlot exec schema i expected none st =
        gradeSlot exec schema i expected (some "") st ∧
      (gradeSlot exec schema i expected none st).status = "FAIL" ∧
      "STATUS: FAIL (Marker not found or empty)\n\n" ∈
        (gradeSlot exec schema i expected none st).log) ∧
    (∀ (content : String) (i : Nat),
      (parseSlot content i = none →
        check_format_slot content i =
          (false, "Marker --" ++ Nat.repr i ++ "-- is missing.")) ∧
      (parseSlot content i = some "" →
        check_format_slot content i =
          (false, "Marker --" ++ Nat.repr i ++
            "-- found, but no query follows it."))) ∧
    (∀ i : Nat,
      ("Marker --" ++ Nat.repr i ++ "-- is missing.") ≠
        ("Marker --" ++ Nat.repr i ++ "-- found, but no query follows it.")) := by
  refine ⟨?_, ?_, ?_⟩
  · intro exec schema i expected st
    refine ⟨?_, rfl, ?_⟩
    · unfold gradeSlot
      rfl
    · unfold gradeSlot
      simp [gradeSlotCore]
  · intro content i
    constructor
    · intro h
      unfold check_format_slot
      rw [h]
    · intro h
      unfold check_format_slot
      rw [h]
      rfl
  · intro i h
    have hl := congrArg String.length h
    rw [String.length_append, String.length_append,
      String.length_append, String.length_append] at hl
    have h2 : ("-- is missing." : String).length = 14 := rfl
    have h3 : ("-- found, but no query follows it." : String).length = 34 :=
      rfl
    omega

/-- Witness for C5 (amended): concrete files exhibiting the two distinct
format-checker messages. -/
theorem c5_absent_handling_witness :
    check_format_slot "SELECT 1 FROM T" 1 =
      (false, "Marker --" ++ Nat.repr 1 ++ "-- is missing.") ∧
    check_format_slot "--1--\n   \n" 1 =
      (false, "Marker --" ++ Nat.repr 1 ++
        "-- found, but no query follows it.") :=
  ⟨(c5_absent_handling.2.1 "SELECT 1 FROM T" 1).1 (by decide),
   (c5_absent_handling.2.1 "--1--\n   \n" 1).2 (by decide)⟩

/-- Counterexample to C5 as stated: the two absence cases are distinct at
the parser (empty payload versus missing marker), but the grading engine
produces the very same slot outcome — including every log line — for both,
so its error messages do not distinguish them. -/
theorem c5_counterexample :
    parse_queries "--1--\n   \n" 1 1 = some "" ∧
    parse_queries "SELECT 1 FROM T" 1 1 = none ∧
    gradeSlot execConst "" 1 none (parse_queries "--1--\n   \n" 1 1) ⟨[]⟩ =
      gradeSlot execConst "" 1 none (parse_queries "SELECT 1 FROM T" 1 1)
        ⟨[]⟩ ∧
    (gradeSlot execConst "" 1 none (parse_queries "--1--\n   \n" 1 1)
      ⟨[]⟩).status = "FAIL" := by
  exact ⟨by decide, by decide, by decide, by decide⟩
